import Mathlib

/-!
Shallow embedding of the cryptosanta backend core:
`backend/models/room.py`, `backend/storage/room_store.py`, and the parts of
`backend/api/routes.py` the claims need.

Modelling conventions:
* The Modal `Dict` (`rooms_dict`) is an association list from room id to `Room`;
  serialisation round-trips, so records are stored directly.
* `datetime.utcnow()` is a `Nat` number of seconds passed in as `now`
  (Python compares `now - created_at > timedelta(...)`; for `now < created_at`
  the Python difference is negative and the Nat difference is `0`, and both
  compare below the TTL, so truncated subtraction is faithful).
* Python exceptions become an `OpResult` value: `ValueError msg` and
  `ConcurrentModificationError msg` are the only exceptions raised by the store.
* Each mutating operation is instrumented: `casAttempts` counts calls to
  `_update_room_with_version` and `sleepsMs` records each `time.sleep`
  duration in milliseconds, in order.
* The compare-and-swap (re-read, compare version, write) is atomic, as the
  spec's concurrency model assumes; writes by concurrent callers between an
  attempt's validation read and its CAS are modelled by an interference
  function `env` applied to the store at that point.
-/

namespace CryptoSanta

/-- `RoomStatus` from `backend/models/room.py`. -/
inductive RoomStatus
  | OPEN
  | SORTED
  | MESSAGING
deriving DecidableEq

/-- `RoomParams` from `backend/models/room.py`: ElGamal parameters as decimal strings. -/
structure RoomParams where
  P : String
  g : String
deriving DecidableEq

/-- `Room` from `backend/models/room.py`; `created_at` is seconds, `version` the OCC token. -/
structure Room where
  id : String
  status : RoomStatus
  params : RoomParams
  session_public_key : String
  chair_secret_hash : String
  participants : List String
  sorted_keys : List String
  messages : List String
  created_at : Nat
  version : Nat
deriving DecidableEq

/-- The Modal Dict keyed by room id, as an association list. -/
abbrev Store := List (String × Room)

/-- `rooms_dict.get(key)`: first binding for the key, if any. -/
def Store.get : Store → String → Option Room
  | [], _ => none
  | (k', r) :: rest, k => if k' = k then some r else Store.get rest k

/-- `rooms_dict[key] = value`: replace the binding for the key, or append one. -/
def Store.set : Store → String → Room → Store
  | [], k, r => [(k, r)]
  | (k', r') :: rest, k, r =>
      if k' = k then (k, r) :: rest else (k', r') :: Store.set rest k r

/-- `rooms_dict.pop(key)` (ignoring the returned value): drop the key's bindings. -/
def Store.popKey : Store → String → Store
  | [], _ => []
  | (k', r') :: rest, k =>
      if k' = k then Store.popKey rest k else (k', r') :: Store.popKey rest k

/-- `ROOM_TTL_SECONDS = 30 * 24 * 60 * 60` from `room_store.py`. -/
def ROOM_TTL_SECONDS : Nat := 30 * 24 * 60 * 60

/-- `MAX_RETRIES = 5` from `room_store.py`. -/
def MAX_RETRIES : Nat := 5

/-- `RETRY_DELAY_MS = 50` from `room_store.py`. -/
def RETRY_DELAY_MS : Nat := 50

/-- Outcome of a store operation: normal return, or one of the two exceptions
`room_store.py` raises (`ValueError`, `ConcurrentModificationError`). -/
inductive OpResult
  | ok
  | valueError (msg : String)
  | concurrentModification (msg : String)
deriving DecidableEq

/-- A mutating operation's result, final store, number of CAS attempts made and
the sleeps performed (milliseconds, in order). -/
structure OpOutcome where
  result : OpResult
  store : Store
  casAttempts : Nat
  sleepsMs : List Nat
deriving DecidableEq

/-- `RoomStore.get_room`: `None` if absent; if the record is older than the TTL,
pop it (lazy eviction) and return `None`; otherwise return it unchanged. -/
def get_room (now : Nat) (s : Store) (room_id : String) : Option Room × Store :=
  match Store.get s room_id with
  | none => (none, s)
  | some room =>
      if ROOM_TTL_SECONDS < now - room.created_at then
        (none, Store.popKey s room_id)
      else
        (some room, s)

/-- `RoomStore._update_room_with_version`: re-read, compare the version, and on a
match write the candidate with `version = expected_version + 1`. -/
def update_room_with_version (now : Nat) (s : Store) (room : Room)
    (expected_version : Nat) : Bool × Store :=
  match get_room now s room.id with
  | (none, s') => (false, s')
  | (some current, s') =>
      if current.version ≠ expected_version then (false, s')
      else (true, Store.set s' room.id { room with version := expected_version + 1 })

/-- `RoomStore.create_room`: store the room under its id and return the id. -/
def create_room (s : Store) (room : Room) : String × Store :=
  (room.id, Store.set s room.id room)

/-- `RoomStore.delete_room`. -/
def delete_room (s : Store) (room_id : String) : Bool × Store :=
  match Store.get s room_id with
  | some _ => (true, Store.popKey s room_id)
  | none => (false, s)

/-- Loop body of `RoomStore.add_participant`; `fuel` is the number of loop
iterations left (`MAX_RETRIES - attempt`), `env attempt` the interference
between this attempt's validation read and its CAS. -/
def add_participant_go (now : Nat) (env : Nat → Store → Store)
    (room_id encrypted_key : String) : Nat → Nat → Store → OpOutcome
  | _, 0, s =>
      { result := .concurrentModification
          "Failed to register after max retries, please try again"
        store := s, casAttempts := 0, sleepsMs := [] }
  | attempt, fuel + 1, s =>
      match get_room now s room_id with
      | (none, s') =>
          { result := .valueError ("Room " ++ room_id ++ " not found")
            store := s', casAttempts := 0, sleepsMs := [] }
      | (some room, s') =>
          if room.status ≠ RoomStatus.OPEN then
            { result := .valueError "Registration is closed"
              store := s', casAttempts := 0, sleepsMs := [] }
          else if encrypted_key ∈ room.participants then
            { result := .valueError "Duplicate registration"
              store := s', casAttempts := 0, sleepsMs := [] }
          else
            let room' := { room with participants := room.participants ++ [encrypted_key] }
            match update_room_with_version now (env attempt s') room' room.version with
            | (true, s'') =>
                { result := .ok, store := s'', casAttempts := 1, sleepsMs := [] }
            | (false, s'') =>
                let rest := add_participant_go now env room_id encrypted_key (attempt + 1) fuel s''
                { result := rest.result, store := rest.store
                  casAttempts := rest.casAttempts + 1
                  sleepsMs := RETRY_DELAY_MS * 2 ^ attempt :: rest.sleepsMs }

/-- `RoomStore.add_participant`: the retry loop ranges over `MAX_RETRIES` attempts. -/
def add_participant (now : Nat) (env : Nat → Store → Store)
    (room_id encrypted_key : String) (s : Store) : OpOutcome :=
  add_participant_go now env room_id encrypted_key 0 MAX_RETRIES s

/-- `RoomStore.set_sorted_keys`: validations in source order, then a single CAS. -/
def set_sorted_keys (now : Nat) (env : Store → Store) (room_id : String)
    (sorted_keys : List String) (s : Store) : OpOutcome :=
  match get_room now s room_id with
  | (none, s') =>
      { result := .valueError ("Room " ++ room_id ++ " not found")
        store := s', casAttempts := 0, sleepsMs := [] }
  | (some room, s') =>
      if room.status ≠ RoomStatus.OPEN then
        { result := .valueError "Room is not in OPEN state"
          store := s', casAttempts := 0, sleepsMs := [] }
      else if sorted_keys.length < 3 then
        { result := .valueError "Minimum 3 participants required"
          store := s', casAttempts := 0, sleepsMs := [] }
      else if sorted_keys.length ≠ room.participants.length then
        { result := .valueError ("Sorted keys count (" ++ toString sorted_keys.length
            ++ ") must match participants count (" ++ toString room.participants.length ++ ")")
          store := s', casAttempts := 0, sleepsMs := [] }
      else if sorted_keys.length ≠ sorted_keys.dedup.length then
        { result := .valueError "Duplicate keys in sorted list"
          store := s', casAttempts := 0, sleepsMs := [] }
      else
        let room' := { room with sorted_keys := sorted_keys, status := RoomStatus.SORTED }
        match update_room_with_version now (env s') room' room.version with
        | (true, s'') =>
            { result := .ok, store := s'', casAttempts := 1, sleepsMs := [] }
        | (false, s'') =>
            { result := .concurrentModification "Room was modified during sorting"
              store := s'', casAttempts := 1, sleepsMs := [] }

/-- Loop body of `RoomStore.add_message`; same shape as registration. -/
def add_message_go (now : Nat) (env : Nat → Store → Store)
    (room_id message_blob : String) : Nat → Nat → Store → OpOutcome
  | _, 0, s =>
      { result := .concurrentModification
          "Failed to post message after max retries, please try again"
        store := s, casAttempts := 0, sleepsMs := [] }
  | attempt, fuel + 1, s =>
      match get_room now s room_id with
      | (none, s') =>
          { result := .valueError ("Room " ++ room_id ++ " not found")
            store := s', casAttempts := 0, sleepsMs := [] }
      | (some room, s') =>
          if room.status = RoomStatus.OPEN then
            { result := .valueError "Cannot send messages before sorting"
              store := s', casAttempts := 0, sleepsMs := [] }
          else if room.sorted_keys.length ≤ room.messages.length then
            { result := .valueError "All participants have already submitted their addresses"
              store := s', casAttempts := 0, sleepsMs := [] }
          else
            let status' := if room.status = RoomStatus.SORTED then RoomStatus.MESSAGING else room.status
            let room' := { room with status := status', messages := room.messages ++ [message_blob] }
            match update_room_with_version now (env attempt s') room' room.version with
            | (true, s'') =>
                { result := .ok, store := s'', casAttempts := 1, sleepsMs := [] }
            | (false, s'') =>
                let rest := add_message_go now env room_id message_blob (attempt + 1) fuel s''
                { result := rest.result, store := rest.store
                  casAttempts := rest.casAttempts + 1
                  sleepsMs := RETRY_DELAY_MS * 2 ^ attempt :: rest.sleepsMs }

/-- `RoomStore.add_message`: the retry loop ranges over `MAX_RETRIES` attempts. -/
def add_message (now : Nat) (env : Nat → Store → Store)
    (room_id message_blob : String) (s : Store) : OpOutcome :=
  add_message_go now env room_id message_blob 0 MAX_RETRIES s

/-- `verify_chair` from `backend/api/routes.py`, parameterised by the SHA-256 hex
digest function (a library primitive): a falsy secret (`None` or the empty
string) is refused before any hash comparison. -/
def verify_chair (sha256_hex : String → String) (room : Room)
    (chair_secret : Option String) : Bool :=
  match chair_secret with
  | none => false
  | some secret =>
      if secret = "" then false
      else sha256_hex secret == room.chair_secret_hash

/-- The outcome the FastAPI routes surface: success, or an `HTTPException`
with a status code and detail string. -/
inductive HttpOutcome
  | success
  | httpError (statusCode : Nat) (detail : String)
deriving DecidableEq

/-- The `register` route from `backend/api/routes.py`: `ValueError` becomes
HTTP 400 and `ConcurrentModificationError` becomes HTTP 409. -/
def register_route (now : Nat) (env : Nat → Store → Store)
    (room_id encryptedKey : String) (s : Store) : HttpOutcome × Store :=
  let o := add_participant now env room_id encryptedKey s
  match o.result with
  | .ok => (.success, o.store)
  | .valueError m => (.httpError 400 m, o.store)
  | .concurrentModification m => (.httpError 409 m, o.store)

/-- The `create_room` route: builds a fresh `OPEN` room with empty lists and
version 0 (the uuid becomes the `new_id` argument) and stores it. -/
def create_room_route (now : Nat) (new_id P g sessionPublicKey chairSecretHash : String)
    (s : Store) : String × Store :=
  create_room s
    { id := new_id, status := RoomStatus.OPEN
      params := { P := P, g := g }
      session_public_key := sessionPublicKey
      chair_secret_hash := chairSecretHash
      participants := [], sorted_keys := [], messages := []
      created_at := now, version := 0 }

/-- No interference: the sequential (single-caller) execution of an operation. -/
def noEnv : Nat → Store → Store := fun _ s => s

/-- Interference that makes a concurrent writer bump the room's version
(the minimal footprint of any winning concurrent mutation). -/
def bumpVersion (room_id : String) (s : Store) : Store :=
  match Store.get s room_id with
  | none => s
  | some r => Store.set s room_id { r with version := r.version + 1 }

/-- `true` when a CAS re-read `o` would fail against `expected`: the record is
gone or its version differs. -/
def versionDiffers : Option Room → Nat → Bool
  | none, _ => true
  | some r, v => decide (r.version ≠ v)

/-- Every stored binding's room carries the key as its id. -/
def keyConsistentB : Store → Bool
  | [] => true
  | (k, r) :: rest => (decide (r.id = k)) && keyConsistentB rest

/-! ### Basic store lemmas -/

theorem Store.get_set_self (s : Store) (k : String) (r : Room) :
    Store.get (Store.set s k r) k = some r := by
  induction s with
  | nil => simp [Store.set, Store.get]
  | cons hd tl ih =>
      obtain ⟨k', r'⟩ := hd
      by_cases h : k' = k
      · simp [Store.set, Store.get, h]
      · simp [Store.set, Store.get, h, ih]

theorem Store.get_popKey_self (s : Store) (k : String) :
    Store.get (Store.popKey s k) k = none := by
  induction s with
  | nil => simp [Store.popKey, Store.get]
  | cons hd tl ih =>
      obtain ⟨k', r'⟩ := hd
      by_cases h : k' = k
      · simp [Store.popKey, h, ih]
      · simp [Store.popKey, Store.get, h, ih]

theorem keyConsistent_get (s : Store) (k : String) (r : Room)
    (hs : keyConsistentB s = true) (hg : Store.get s k = some r) : r.id = k := by
  induction s with
  | nil => simp [Store.get] at hg
  | cons hd tl ih =>
      obtain ⟨k', r'⟩ := hd
      simp only [keyConsistentB, Bool.and_eq_true, decide_eq_true_eq] at hs
      by_cases h : k' = k
      · simp only [Store.get, h, if_pos rfl] at hg
        cases hg
        exact h ▸ hs.1
      · simp only [Store.get, if_neg h] at hg
        exact ih hs.2 hg

/-! ### `get_room` characterisation -/

theorem get_room_absent (now : Nat) (s : Store) (rid : String)
    (h : Store.get s rid = none) : get_room now s rid = (none, s) := by
  simp [get_room, h]

theorem get_room_live (now : Nat) (s : Store) (rid : String) (room : Room)
    (h : Store.get s rid = some room)
    (hl : now - room.created_at ≤ ROOM_TTL_SECONDS) :
    get_room now s rid = (some room, s) := by
  have hnot : ¬ ROOM_TTL_SECONDS < now - room.created_at := Nat.not_lt.mpr hl
  simp [get_room, h, hnot]

theorem get_room_expired (now : Nat) (s : Store) (rid : String) (room : Room)
    (h : Store.get s rid = some room)
    (he : ROOM_TTL_SECONDS < now - room.created_at) :
    get_room now s rid = (none, Store.popKey s rid) := by
  simp [get_room, h, he]

/-! ### CAS characterisation -/

theorem update_ok (now : Nat) (s : Store) (room current : Room) (expected : Nat)
    (h : get_room now s room.id = (some current, s))
    (hv : current.version = expected) :
    update_room_with_version now s room expected =
      (true, Store.set s room.id { room with version := expected + 1 }) := by
  simp [update_room_with_version, h, hv]

theorem update_fail (now : Nat) (s : Store) (room : Room) (expected : Nat)
    (o : Option Room) (s' : Store)
    (h : get_room now s room.id = (o, s'))
    (ho : versionDiffers o expected = true) :
    update_room_with_version now s room expected = (false, s') := by
  cases o with
  | none => simp [update_room_with_version, h]
  | some r =>
      simp only [versionDiffers, decide_eq_true_eq] at ho
      simp [update_room_with_version, h, ho]

/-! ### `add_participant` characterisation -/

theorem add_participant_eq (now : Nat) (env : Nat → Store → Store)
    (rid key : String) (s : Store) :
    add_participant now env rid key s = add_participant_go now env rid key 0 (4 + 1) s := rfl

theorem add_participant_not_found (now : Nat) (env : Nat → Store → Store)
    (rid key : String) (s s2 : Store)
    (h : get_room now s rid = (none, s2)) :
    add_participant now env rid key s =
      { result := .valueError ("Room " ++ rid ++ " not found")
        store := s2, casAttempts := 0, sleepsMs := [] } := by
  rw [add_participant_eq]
  simp [add_participant_go, h]

theorem add_participant_closed (now : Nat) (env : Nat → Store → Store)
    (rid key : String) (s s2 : Store) (room : Room)
    (h : get_room now s rid = (some room, s2))
    (hst : room.status ≠ RoomStatus.OPEN) :
    add_participant now env rid key s =
      { result := .valueError "Registration is closed"
        store := s2, casAttempts := 0, sleepsMs := [] } := by
  rw [add_participant_eq]
  simp [add_participant_go, h, hst]

theorem add_participant_dup (now : Nat) (env : Nat → Store → Store)
    (rid key : String) (s s2 : Store) (room : Room)
    (h : get_room now s rid = (some room, s2))
    (hopen : room.status = RoomStatus.OPEN)
    (hmem : key ∈ room.participants) :
    add_participant now env rid key s =
      { result := .valueError "Duplicate registration"
        store := s2, casAttempts := 0, sleepsMs := [] } := by
  rw [add_participant_eq]
  simp [add_participant_go, h, hopen, hmem]

theorem add_participant_ok_eq (now : Nat) (rid key : String) (s : Store) (room : Room)
    (hget : Store.get s rid = some room) (hid : room.id = rid)
    (hlive : now - room.created_at ≤ ROOM_TTL_SECONDS)
    (hopen : room.status = RoomStatus.OPEN) (hfresh : key ∉ room.participants) :
    add_participant now noEnv rid key s =
      { result := .ok
        store := Store.set s rid
          { room with participants := room.participants ++ [key], version := room.version + 1 }
        casAttempts := 1, sleepsMs := [] } := by
  have hgr := get_room_live now s rid room hget hlive
  have hgrid : get_room now s room.id = (some room, s) := by rw [hid]; exact hgr
  rw [add_participant_eq]
  simp [add_participant_go, hgr, hopen, hfresh, noEnv, update_room_with_version, hgrid, hid]

/-! ### `set_sorted_keys` characterisation -/

theorem set_sorted_keys_not_found (now : Nat) (env : Store → Store)
    (rid : String) (keys : List String) (s s2 : Store)
    (h : get_room now s rid = (none, s2)) :
    set_sorted_keys now env rid keys s =
      { result := .valueError ("Room " ++ rid ++ " not found")
        store := s2, casAttempts := 0, sleepsMs := [] } := by
  simp [set_sorted_keys, h]

theorem set_sorted_keys_not_open (now : Nat) (env : Store → Store)
    (rid : String) (keys : List String) (s s2 : Store) (room : Room)
    (h : get_room now s rid = (some room, s2))
    (hst : room.status ≠ RoomStatus.OPEN) :
    set_sorted_keys now env rid keys s =
      { result := .valueError "Room is not in OPEN state"
        store := s2, casAttempts := 0, sleepsMs := [] } := by
  simp [set_sorted_keys, h, hst]

theorem set_sorted_keys_too_few (now : Nat) (env : Store → Store)
    (rid : String) (keys : List String) (s s2 : Store) (room : Room)
    (h : get_room now s rid = (some room, s2))
    (hopen : room.status = RoomStatus.OPEN)
    (hlen : keys.length < 3) :
    set_sorted_keys now env rid keys s =
      { result := .valueError "Minimum 3 participants required"
        store := s2, casAttempts := 0, sleepsMs := [] } := by
  simp [set_sorted_keys, h, hopen, hlen]

theorem set_sorted_keys_count_mismatch (now : Nat) (env : Store → Store)
    (rid : String) (keys : List String) (s s2 : Store) (room : Room)
    (h : get_room now s rid = (some room, s2))
    (hopen : room.status = RoomStatus.OPEN)
    (hlen : ¬ keys.length < 3)
    (hcnt : keys.length ≠ room.participants.length) :
    set_sorted_keys now env rid keys s =
      { result := .valueError ("Sorted keys count (" ++ toString keys.length
          ++ ") must match participants count (" ++ toString room.participants.length ++ ")")
        store := s2, casAttempts := 0, sleepsMs := [] } := by
  simp [set_sorted_keys, h, hopen, hlen, hcnt]

theorem set_sorted_keys_dup (now : Nat) (env : Store → Store)
    (rid : String) (keys : List String) (s s2 : Store) (room : Room)
    (h : get_room now s rid = (some room, s2))
    (hopen : room.status = RoomStatus.OPEN)
    (hlen : ¬ keys.length < 3)
    (hcnt : keys.length = room.participants.length)
    (hdup : keys.length ≠ keys.dedup.length) :
    set_sorted_keys now env rid keys s =
      { result := .valueError "Duplicate keys in sorted list"
        store := s2, casAttempts := 0, sleepsMs := [] } := by
  simp only [set_sorted_keys, h]
  rw [if_neg (not_ne_iff.mpr hopen), if_neg hlen, if_neg (not_ne_iff.mpr hcnt), if_pos hdup]

theorem set_sorted_keys_ok_eq (now : Nat) (rid : String) (keys : List String)
    (s : Store) (room : Room)
    (hget : Store.get s rid = some room) (hid : room.id = rid)
    (hlive : now - room.created_at ≤ ROOM_TTL_SECONDS)
    (hopen : room.status = RoomStatus.OPEN)
    (hlen : ¬ keys.length < 3)
    (hcnt : keys.length = room.participants.length)
    (hdup : keys.length = keys.dedup.length) :
    set_sorted_keys now (fun t => t) rid keys s =
      { result := .ok
        store := Store.set s rid
          { room with
              sorted_keys := keys
              status := RoomStatus.SORTED
              version := room.version + 1 }
        casAttempts := 1, sleepsMs := [] } := by
  have hgr := get_room_live now s rid room hget hlive
  have hgrid : get_room now s room.id = (some room, s) := by rw [hid]; exact hgr
  have hcas := update_ok now s
    { room with sorted_keys := keys, status := RoomStatus.SORTED } room room.version hgrid rfl
  simp only [set_sorted_keys, hgr]
  rw [if_neg (not_ne_iff.mpr hopen), if_neg hlen, if_neg (not_ne_iff.mpr hcnt),
    if_neg (not_ne_iff.mpr hdup)]
  simp only [hcas]
  simp [hid]

theorem set_sorted_keys_conflict (now : Nat) (env : Store → Store)
    (rid : String) (keys : List String) (s : Store) (room : Room)
    (hget : Store.get s rid = some room) (hid : room.id = rid)
    (hlive : now - room.created_at ≤ ROOM_TTL_SECONDS)
    (hopen : room.status = RoomStatus.OPEN)
    (hlen : ¬ keys.length < 3)
    (hcnt : keys.length = room.participants.length)
    (hdup : keys.length = keys.dedup.length)
    (hv : versionDiffers (get_room now (env s) rid).1 room.version = true) :
    set_sorted_keys now env rid keys s =
      { result := .concurrentModification "Room was modified during sorting"
        store := (get_room now (env s) rid).2, casAttempts := 1, sleepsMs := [] } := by
  have hgr := get_room_live now s rid room hget hlive
  have hvid : versionDiffers (get_room now (env s) room.id).1 room.version = true := by
    rw [hid]; exact hv
  have hfail := update_fail now (env s)
    { room with sorted_keys := keys, status := RoomStatus.SORTED } room.version
    (get_room now (env s) room.id).1 (get_room now (env s) room.id).2 rfl hvid
  simp only [set_sorted_keys, hgr]
  rw [if_neg (not_ne_iff.mpr hopen), if_neg hlen, if_neg (not_ne_iff.mpr hcnt),
    if_neg (not_ne_iff.mpr hdup)]
  simp only [hfail]
  simp [hid]

/-! ### `add_message` characterisation -/

theorem add_message_eq (now : Nat) (env : Nat → Store → Store)
    (rid blob : String) (s : Store) :
    add_message now env rid blob s = add_message_go now env rid blob 0 (4 + 1) s := rfl

theorem add_message_not_found (now : Nat) (env : Nat → Store → Store)
    (rid blob : String) (s s2 : Store)
    (h : get_room now s rid = (none, s2)) :
    add_message now env rid blob s =
      { result := .valueError ("Room " ++ rid ++ " not found")
        store := s2, casAttempts := 0, sleepsMs := [] } := by
  rw [add_message_eq]
  simp [add_message_go, h]

theorem add_message_before_sorting (now : Nat) (env : Nat → Store → Store)
    (rid blob : String) (s s2 : Store) (room : Room)
    (h : get_room now s rid = (some room, s2))
    (hst : room.status = RoomStatus.OPEN) :
    add_message now env rid blob s =
      { result := .valueError "Cannot send messages before sorting"
        store := s2, casAttempts := 0, sleepsMs := [] } := by
  rw [add_message_eq]
  simp [add_message_go, h, hst]

theorem add_message_full (now : Nat) (env : Nat → Store → Store)
    (rid blob : String) (s s2 : Store) (room : Room)
    (h : get_room now s rid = (some room, s2))
    (hst : room.status ≠ RoomStatus.OPEN)
    (hfull : room.sorted_keys.length ≤ room.messages.length) :
    add_message now env rid blob s =
      { result := .valueError "All participants have already submitted their addresses"
        store := s2, casAttempts := 0, sleepsMs := [] } := by
  rw [add_message_eq]
  simp [add_message_go, h, hst, hfull]

theorem add_message_ok_eq (now : Nat) (rid blob : String) (s : Store) (room : Room)
    (hget : Store.get s rid = some room) (hid : room.id = rid)
    (hlive : now - room.created_at ≤ ROOM_TTL_SECONDS)
    (hst : room.status ≠ RoomStatus.OPEN)
    (hcap : room.messages.length < room.sorted_keys.length) :
    add_message now noEnv rid blob s =
      { result := .ok
        store := Store.set s rid
          { room with
              status := if room.status = RoomStatus.SORTED then RoomStatus.MESSAGING else room.status
              messages := room.messages ++ [blob]
              version := room.version + 1 }
        casAttempts := 1, sleepsMs := [] } := by
  have hgr := get_room_live now s rid room hget hlive
  have hgrid : get_room now s room.id = (some room, s) := by rw [hid]; exact hgr
  have hfull : ¬ room.sorted_keys.length ≤ room.messages.length := Nat.not_le.mpr hcap
  rw [add_message_eq]
  simp [add_message_go, hgr, hst, hfull, noEnv, update_room_with_version, hgrid, hid]

/-! ### Reachable stores and the room invariant

`Reachable` closes the empty store under the operations the routes expose,
each executed atomically (the spec's concurrency model: interleavings of
complete CAS-protected writes). `roomInvB` is the per-record invariant:
the binding's key is the room's id, a room that has not reached `MESSAGING`
has no messages, and the participants list has no duplicates. -/

def roomInvB (k : String) (r : Room) : Bool :=
  decide (r.id = k)
    && (decide (r.status = RoomStatus.MESSAGING) || r.messages.isEmpty)
    && decide r.participants.Nodup

def storeInvB : Store → Bool
  | [] => true
  | (k, r) :: rest => roomInvB k r && storeInvB rest

inductive Reachable : Store → Prop
  | empty : Reachable []
  | create (s : Store) (now : Nat) (new_id P g spk csh : String) :
      Reachable s → Reachable (create_room_route now new_id P g spk csh s).2
  | readRoom (s : Store) (now : Nat) (rid : String) :
      Reachable s → Reachable (get_room now s rid).2
  | register (s : Store) (now : Nat) (rid key : String) :
      Reachable s → Reachable (add_participant now noEnv rid key s).store
  | sortKeys (s : Store) (now : Nat) (rid : String) (keys : List String) :
      Reachable s → Reachable (set_sorted_keys now (fun t => t) rid keys s).store
  | message (s : Store) (now : Nat) (rid blob : String) :
      Reachable s → Reachable (add_message now noEnv rid blob s).store
  | deleteRoom (s : Store) (rid : String) :
      Reachable s → Reachable (delete_room s rid).2

theorem roomInvB_spec (k : String) (r : Room) (h : roomInvB k r = true) :
    r.id = k ∧ (r.status ≠ RoomStatus.MESSAGING → r.messages = []) ∧ r.participants.Nodup := by
  simp only [roomInvB, Bool.and_eq_true, Bool.or_eq_true, decide_eq_true_eq,
    List.isEmpty_iff] at h
  refine ⟨h.1.1, ?_, h.2⟩
  intro hst
  rcases h.1.2 with h' | h'
  · exact absurd h' hst
  · exact h'

theorem roomInvB_mk (k : String) (r : Room) (hid : r.id = k)
    (hmsg : r.status ≠ RoomStatus.MESSAGING → r.messages = [])
    (hnd : r.participants.Nodup) : roomInvB k r = true := by
  simp only [roomInvB, Bool.and_eq_true, Bool.or_eq_true, decide_eq_true_eq,
    List.isEmpty_iff]
  refine ⟨⟨hid, ?_⟩, hnd⟩
  by_cases hst : r.status = RoomStatus.MESSAGING
  · exact Or.inl hst
  · exact Or.inr (hmsg hst)

theorem storeInvB_get (s : Store) (k : String) (r : Room)
    (hs : storeInvB s = true) (hg : Store.get s k = some r) : roomInvB k r = true := by
  induction s with
  | nil => simp [Store.get] at hg
  | cons hd tl ih =>
      obtain ⟨k', r'⟩ := hd
      simp only [storeInvB, Bool.and_eq_true] at hs
      by_cases h : k' = k
      · simp only [Store.get, if_pos h] at hg
        cases hg
        exact h ▸ hs.1
      · simp only [Store.get, if_neg h] at hg
        exact ih hs.2 hg

theorem storeInvB_set (s : Store) (k : String) (r : Room)
    (hs : storeInvB s = true) (hr : roomInvB k r = true) :
    storeInvB (Store.set s k r) = true := by
  induction s with
  | nil => simp [Store.set, storeInvB, hr]
  | cons hd tl ih =>
      obtain ⟨k', r'⟩ := hd
      simp only [storeInvB, Bool.and_eq_true] at hs
      by_cases h : k' = k
      · simp [Store.set, h, storeInvB, hr, hs.2]
      · simp [Store.set, h, storeInvB, hs.1, ih hs.2]

theorem storeInvB_popKey (s : Store) (k : String)
    (hs : storeInvB s = true) : storeInvB (Store.popKey s k) = true := by
  induction s with
  | nil => simp [Store.popKey, storeInvB]
  | cons hd tl ih =>
      obtain ⟨k', r'⟩ := hd
      simp only [storeInvB, Bool.and_eq_true] at hs
      by_cases h : k' = k
      · simp [Store.popKey, h, ih hs.2]
      · simp [Store.popKey, h, storeInvB, hs.1, ih hs.2]

theorem storeInvB_get_room (now : Nat) (s : Store) (rid : String)
    (hs : storeInvB s = true) : storeInvB (get_room now s rid).2 = true := by
  cases h : Store.get s rid with
  | none => simp [get_room, h, hs]
  | some room =>
      by_cases he : ROOM_TTL_SECONDS < now - room.created_at
      · simp [get_room, h, he, storeInvB_popKey s rid hs]
      · simp [get_room, h, he, hs]

theorem get_room_some (now : Nat) (s : Store) (rid : String) (room : Room) (s' : Store)
    (h : get_room now s rid = (some room, s')) :
    Store.get s rid = some room ∧ s' = s ∧ now - room.created_at ≤ ROOM_TTL_SECONDS := by
  cases hg : Store.get s rid with
  | none => simp [get_room, hg] at h
  | some r =>
      by_cases he : ROOM_TTL_SECONDS < now - r.created_at
      · simp [get_room, hg, he] at h
      · simp only [get_room, hg, if_neg he, Prod.mk.injEq, Option.some.injEq] at h
        obtain ⟨h1, h2⟩ := h
        subst h1
        subst h2
        exact ⟨hg ▸ rfl, rfl, Nat.not_lt.mp he⟩

theorem storeInvB_update (now : Nat) (s : Store) (room : Room) (expected : Nat)
    (hs : storeInvB s = true)
    (hr : roomInvB room.id { room with version := expected + 1 } = true) :
    storeInvB (update_room_with_version now s room expected).2 = true := by
  have hs2 := storeInvB_get_room now s room.id hs
  rcases hg : get_room now s room.id with ⟨o, s'⟩
  rw [hg] at hs2
  cases o with
  | none => simp [update_room_with_version, hg, hs2]
  | some cur =>
      by_cases hv : cur.version ≠ expected
      · simp [update_room_with_version, hg, hv, hs2]
      · simp only [update_room_with_version, hg, if_neg hv]
        exact storeInvB_set s' room.id _ hs2 hr

theorem storeInvB_add_participant_go (now : Nat) (rid key : String) :
    ∀ (fuel attempt : Nat) (s : Store), storeInvB s = true →
      storeInvB (add_participant_go now noEnv rid key attempt fuel s).store = true := by
  intro fuel
  induction fuel with
  | zero => intro attempt s hs; simpa [add_participant_go] using hs
  | succ n ih =>
      intro attempt s hs
      rcases hg : get_room now s rid with ⟨o, s'⟩
      have hs' : storeInvB s' = true := by
        have h2 := storeInvB_get_room now s rid hs
        rw [hg] at h2
        exact h2
      cases o with
      | none => simp [add_participant_go, hg, hs']
      | some room =>
          have hroom : roomInvB rid room = true := by
            obtain ⟨hg1, _, _⟩ := get_room_some now s rid room s' hg
            exact storeInvB_get s rid room hs hg1
          obtain ⟨hid, hmsg, hnd⟩ := roomInvB_spec rid room hroom
          by_cases hst : room.status ≠ RoomStatus.OPEN
          · simp [add_participant_go, hg, hst, hs']
          · by_cases hmem : key ∈ room.participants
            · simp [add_participant_go, hg, hst, hmem, hs']
            · have hr : roomInvB
                  ({ room with participants := room.participants ++ [key] } : Room).id
                  { room with participants := room.participants ++ [key], version := room.version + 1 }
                  = true := by
                apply roomInvB_mk
                · rfl
                · intro h
                  exact hmsg h
                · simp [List.nodup_append, hnd, hmem]
              have hupd := storeInvB_update now s'
                { room with participants := room.participants ++ [key] } room.version hs' hr
              rcases hu : update_room_with_version now s'
                  { room with participants := room.participants ++ [key] } room.version
                with ⟨b, s''⟩
              rw [hu] at hupd
              cases b with
              | true => simp [add_participant_go, hg, hst, hmem, noEnv, hu, hupd]
              | false =>
                  have hrec := ih (attempt + 1) s'' hupd
                  simp [add_participant_go, hg, hst, hmem, noEnv, hu, hrec]

theorem storeInvB_add_message_go (now : Nat) (rid blob : String) :
    ∀ (fuel attempt : Nat) (s : Store), storeInvB s = true →
      storeInvB (add_message_go now noEnv rid blob attempt fuel s).store = true := by
  intro fuel
  induction fuel with
  | zero => intro attempt s hs; simpa [add_message_go] using hs
  | succ n ih =>
      intro attempt s hs
      rcases hg : get_room now s rid with ⟨o, s'⟩
      have hs' : storeInvB s' = true := by
        have h2 := storeInvB_get_room now s rid hs
        rw [hg] at h2
        exact h2
      cases o with
      | none => simp [add_message_go, hg, hs']
      | some room =>
          have hroom : roomInvB rid room = true := by
            obtain ⟨hg1, _, _⟩ := get_room_some now s rid room s' hg
            exact storeInvB_get s rid room hs hg1
          obtain ⟨hid, hmsg, hnd⟩ := roomInvB_spec rid room hroom
          by_cases hst : room.status = RoomStatus.OPEN
          · simp [add_message_go, hg, hst, hs']
          · by_cases hfull : room.sorted_keys.length ≤ room.messages.length
            · simp [add_message_go, hg, hst, hfull, hs']
            · have hstat : (if room.status = RoomStatus.SORTED then RoomStatus.MESSAGING
                  else room.status) = RoomStatus.MESSAGING ∨
                  room.status = RoomStatus.MESSAGING := by
                cases h : room.status with
                | OPEN => exact absurd h hst
                | SORTED => simp
                | MESSAGING => simp
              have hr : roomInvB
                  ({ room with
                      status := if room.status = RoomStatus.SORTED then RoomStatus.MESSAGING else room.status
                      messages := room.messages ++ [blob] } : Room).id
                  { room with
                      status := if room.status = RoomStatus.SORTED then RoomStatus.MESSAGING else room.status
                      messages := room.messages ++ [blob]
                      version := room.version + 1 }
                  = true := by
                apply roomInvB_mk
                · rfl
                · intro h
                  rcases hstat with h' | h'
                  · exact absurd h' h
                  · simp [h'] at h
                · exact hnd
              have hupd := storeInvB_update now s'
                { room with
                    status := if room.status = RoomStatus.SORTED then RoomStatus.MESSAGING else room.status
                    messages := room.messages ++ [blob] } room.version hs' hr
              rcases hu : update_room_with_version now s'
                  { room with
                      status := if room.status = RoomStatus.SORTED then RoomStatus.MESSAGING else room.status
                      messages := room.messages ++ [blob] } room.version
                with ⟨b, s''⟩
              rw [hu] at hupd
              cases b with
              | true => simp [add_message_go, hg, hst, hfull, noEnv, hu, hupd]
              | false =>
                  have hrec := ih (attempt + 1) s'' hupd
                  simp [add_message_go, hg, hst, hfull, noEnv, hu, hrec]

theorem storeInvB_set_sorted_keys (now : Nat) (rid : String) (keys : List String)
    (s : Store) (hs : storeInvB s = true) :
    storeInvB (set_sorted_keys now (fun t => t) rid keys s).store = true := by
  rcases hg : get_room now s rid with ⟨o, s'⟩
  have hs' : storeInvB s' = true := by
    have h2 := storeInvB_get_room now s rid hs
    rw [hg] at h2
    exact h2
  cases o with
  | none => simp [set_sorted_keys, hg, hs']
  | some room =>
      have hroom : roomInvB rid room = true := by
        obtain ⟨hg1, _, _⟩ := get_room_some now s rid room s' hg
        exact storeInvB_get s rid room hs hg1
      obtain ⟨hid, hmsg, hnd⟩ := roomInvB_spec rid room hroom
      by_cases h1 : room.status ≠ RoomStatus.OPEN
      · simp [set_sorted_keys, hg, h1, hs']
      · have hopen : room.status = RoomStatus.OPEN := not_ne_iff.mp h1
        by_cases h2 : keys.length < 3
        · simp [set_sorted_keys, hg, h1, h2, hs']
        · by_cases h3 : keys.length ≠ room.participants.length
          · simp only [set_sorted_keys, hg]
            rw [if_neg h1, if_neg h2, if_pos h3]
            exact hs'
          · by_cases h4 : keys.length ≠ keys.dedup.length
            · simp only [set_sorted_keys, hg]
              rw [if_neg h1, if_neg h2, if_neg h3, if_pos h4]
              exact hs'
            · have hr : roomInvB
                  ({ room with sorted_keys := keys, status := RoomStatus.SORTED } : Room).id
                  { room with sorted_keys := keys, status := RoomStatus.SORTED, version := room.version + 1 }
                  = true := by
                apply roomInvB_mk
                · rfl
                · intro _
                  exact hmsg (by simp [hopen])
                · exact hnd
              have hupd := storeInvB_update now s'
                { room with sorted_keys := keys, status := RoomStatus.SORTED } room.version hs' hr
              rcases hu : update_room_with_version now s'
                  { room with sorted_keys := keys, status := RoomStatus.SORTED } room.version
                with ⟨b, s''⟩
              rw [hu] at hupd
              simp only [set_sorted_keys, hg]
              rw [if_neg h1, if_neg h2, if_neg h3, if_neg h4]
              cases b with
              | true => simpa [hu] using hupd
              | false => simpa [hu] using hupd

theorem reachable_storeInv (s : Store) (h : Reachable s) : storeInvB s = true := by
  induction h with
  | empty => rfl
  | create s now new_id P g spk csh _ ih =>
      refine storeInvB_set s _ _ ih ?_
      apply roomInvB_mk
      · rfl
      · intro _
        rfl
      · exact List.nodup_nil
  | readRoom s now rid _ ih => exact storeInvB_get_room now s rid ih
  | register s now rid key _ ih => exact storeInvB_add_participant_go now rid key MAX_RETRIES 0 s ih
  | sortKeys s now rid keys _ ih => exact storeInvB_set_sorted_keys now rid keys s ih
  | message s now rid blob _ ih => exact storeInvB_add_message_go now rid blob MAX_RETRIES 0 s ih
  | deleteRoom s rid _ ih =>
      cases hg : Store.get s rid with
      | none => simpa [delete_room, hg] using ih
      | some r => simpa [delete_room, hg] using storeInvB_popKey s rid ih

/-! ### Concrete sample data for witnesses and counterexamples -/

def sampleRoom : Room :=
  { id := "r1", status := RoomStatus.OPEN, params := { P := "23", g := "5" }
    session_public_key := "spk", chair_secret_hash := "h"
    participants := [], sorted_keys := [], messages := []
    created_at := 0, version := 0 }

def dupRoom : Room := { sampleRoom with participants := ["dup"] }

def sortedRoom : Room :=
  { sampleRoom with
      status := RoomStatus.SORTED
      participants := ["a", "b", "c"]
      sorted_keys := ["x", "y", "z"] }

/-! ### Claims -/

/-- C1: every successful mutating operation (register participant, post message,
set sorted keys) funnels its write through `update_room_with_version`; when that
CAS succeeds, the record the store holds afterwards carries exactly
`expected_version + 1`, where `expected_version` was both the version read at
the start of the winning attempt (each operation passes the freshly read
`room.version`) and the version the CAS re-read observed — so the version grows
by exactly 1 under an accepted write, never decreasing and never skipping.
The last three conjuncts state the end-to-end `+1` for each operation. -/
theorem version_increments_by_one :
    (∀ (now : Nat) (s : Store) (room : Room) (expected : Nat) (s' : Store),
        update_room_with_version now s room expected = (true, s') →
        (∃ cur, (get_room now s room.id).1 = some cur ∧ cur.version = expected) ∧
        Store.get s' room.id = some { room with version := expected + 1 })
    ∧ (∀ (now : Nat) (rid key : String) (s : Store), keyConsistentB s = true →
        (add_participant now noEnv rid key s).result = .ok →
        ∃ room room', Store.get s rid = some room ∧
          Store.get (add_participant now noEnv rid key s).store rid = some room' ∧
          room'.version = room.version + 1)
    ∧ (∀ (now : Nat) (rid : String) (keys : List String) (s : Store), keyConsistentB s = true →
        (set_sorted_keys now (fun t => t) rid keys s).result = .ok →
        ∃ room room', Store.get s rid = some room ∧
          Store.get (set_sorted_keys now (fun t => t) rid keys s).store rid = some room' ∧
          room'.version = room.version + 1)
    ∧ (∀ (now : Nat) (rid blob : String) (s : Store), keyConsistentB s = true →
        (add_message now noEnv rid blob s).result = .ok →
        ∃ room room', Store.get s rid = some room ∧
          Store.get (add_message now noEnv rid blob s).store rid = some room' ∧
          room'.version = room.version + 1) := by
  refine ⟨?_, ?_, ?_, ?_⟩
  · intro now s room expected s' hupd
    rcases hg : get_room now s room.id with ⟨o, s2⟩
    cases o with
    | none =>
        rw [update_fail now s room expected none s2 hg rfl] at hupd
        simp at hupd
    | some cur =>
        obtain ⟨hget, hs2, _⟩ := get_room_some now s room.id cur s2 hg
        rw [hs2] at hg
        by_cases hv : cur.version = expected
        · rw [update_ok now s room cur expected hg hv] at hupd
          have hs' : Store.set s room.id { room with version := expected + 1 } = s' :=
            congrArg Prod.snd hupd
          refine ⟨⟨cur, rfl, hv⟩, ?_⟩
          rw [← hs']
          exact Store.get_set_self s room.id _
        · rw [update_fail now s room expected (some cur) s hg
            (by simp [versionDiffers, hv])] at hupd
          simp at hupd
  · intro now rid key s hkc hok
    cases hget : Store.get s rid with
    | none =>
        rw [add_participant_not_found now noEnv rid key s s
          (get_room_absent now s rid hget)] at hok
        simp at hok
    | some room =>
        by_cases hlive : now - room.created_at ≤ ROOM_TTL_SECONDS
        · have hid := keyConsistent_get s rid room hkc hget
          have hgr := get_room_live now s rid room hget hlive
          by_cases hopen : room.status = RoomStatus.OPEN
          · by_cases hmem : key ∈ room.participants
            · rw [add_participant_dup now noEnv rid key s s room hgr hopen hmem] at hok
              simp at hok
            · refine ⟨room, { room with participants := room.participants ++ [key], version := room.version + 1 }, rfl, ?_, ?_⟩
              · rw [add_participant_ok_eq now rid key s room hget hid hlive hopen hmem]
                exact Store.get_set_self s rid _
              · rfl
          · rw [add_participant_closed now noEnv rid key s s room hgr hopen] at hok
            simp at hok
        · rw [add_participant_not_found now noEnv rid key s (Store.popKey s rid)
            (get_room_expired now s rid room hget (Nat.not_le.mp hlive))] at hok
          simp at hok
  · intro now rid keys s hkc hok
    cases hget : Store.get s rid with
    | none =>
        rw [set_sorted_keys_not_found now (fun t => t) rid keys s s
          (get_room_absent now s rid hget)] at hok
        simp at hok
    | some room =>
        by_cases hlive : now - room.created_at ≤ ROOM_TTL_SECONDS
        · have hid := keyConsistent_get s rid room hkc hget
          have hgr := get_room_live now s rid room hget hlive
          by_cases hopen : room.status = RoomStatus.OPEN
          · by_cases hlen : keys.length < 3
            · rw [set_sorted_keys_too_few now (fun t => t) rid keys s s room hgr hopen hlen] at hok
              simp at hok
            · by_cases hcnt : keys.length = room.participants.length
              · by_cases hdup : keys.length = keys.dedup.length
                · refine ⟨room, { room with sorted_keys := keys, status := RoomStatus.SORTED, version := room.version + 1 }, rfl, ?_, ?_⟩
                  · rw [set_sorted_keys_ok_eq now rid keys s room hget hid hlive hopen hlen hcnt hdup]
                    exact Store.get_set_self s rid _
                  · rfl
                · rw [set_sorted_keys_dup now (fun t => t) rid keys s s room hgr hopen hlen hcnt hdup] at hok
                  simp at hok
              · rw [set_sorted_keys_count_mismatch now (fun t => t) rid keys s s room hgr hopen hlen hcnt] at hok
                simp at hok
          · rw [set_sorted_keys_not_open now (fun t => t) rid keys s s room hgr hopen] at hok
            simp at hok
        · rw [set_sorted_keys_not_found now (fun t => t) rid keys s (Store.popKey s rid)
            (get_room_expired now s rid room hget (Nat.not_le.mp hlive))] at hok
          simp at hok
  · intro now rid blob s hkc hok
    cases hget : Store.get s rid with
    | none =>
        rw [add_message_not_found now noEnv rid blob s s
          (get_room_absent now s rid hget)] at hok
        simp at hok
    | some room =>
        by_cases hlive : now - room.created_at ≤ ROOM_TTL_SECONDS
        · have hid := keyConsistent_get s rid room hkc hget
          have hgr := get_room_live now s rid room hget hlive
          by_cases hst : room.status = RoomStatus.OPEN
          · rw [add_message_before_sorting now noEnv rid blob s s room hgr hst] at hok
            simp at hok
          · by_cases hfull : room.sorted_keys.length ≤ room.messages.length
            · rw [add_message_full now noEnv rid blob s s room hgr hst hfull] at hok
              simp at hok
            · refine ⟨room, { room with status := if room.status = RoomStatus.SORTED then RoomStatus.MESSAGING else room.status, messages := room.messages ++ [blob], version := room.version + 1 }, rfl, ?_, ?_⟩
              · rw [add_message_ok_eq now rid blob s room hget hid hlive hst (Nat.not_le.mp hfull)]
                exact Store.get_set_self s rid _
              · rfl
        · rw [add_message_not_found now noEnv rid blob s (Store.popKey s rid)
            (get_room_expired now s rid room hget (Nat.not_le.mp hlive))] at hok
          simp at hok

/-- C1 witness: on a concrete one-room store, registration succeeds and the
stored version goes from 0 to 1. -/
theorem version_increments_by_one_witness :
    keyConsistentB [("r1", sampleRoom)] = true ∧
    (add_participant 0 noEnv "r1" "k" [("r1", sampleRoom)]).result = .ok ∧
    (∃ room room', Store.get [("r1", sampleRoom)] "r1" = some room ∧
      Store.get (add_participant 0 noEnv "r1" "k" [("r1", sampleRoom)]).store "r1" = some room' ∧
      room'.version = room.version + 1) :=
  ⟨by decide, by decide,
    version_increments_by_one.2.1 0 "r1" "k" [("r1", sampleRoom)] (by decide) (by decide)⟩

/-- C2 counterexample: the not-found failure of a mutating operation is not a
client-visible outcome distinct from a validation error. On the register route,
an absent room surfaces as `HTTPException(400, "Room missing not found")` —
the same status code 400 that a duplicate-registration validation error gets,
because `RoomStore.add_participant` raises plain `ValueError` for both and the
route maps every `ValueError` to 400 (only the read routes use 404). -/
theorem notfound_not_distinct_counterexample :
    (register_route 0 noEnv "missing" "k" []).1 = .httpError 400 "Room missing not found" ∧
    (register_route 0 noEnv "r1" "dup" [("r1", dupRoom)]).1 = .httpError 400 "Duplicate registration" := by
  constructor
  · decide
  · decide

/-- C2 (amended): when a mutating operation (register participant, post message,
set sorted keys) reads the store and the room record is absent or expired, it
fails immediately — with zero CAS attempts and no retry or backoff — raising
the same `ValueError` type used for validation failures, with message
`Room {id} not found`; the register route surfaces it as HTTP 400, the same
status validation errors get, so it is distinguishable only by its message
text, not as a separate not-found outcome. -/
theorem mutating_op_notfound (now : Nat) (envP envM : Nat → Store → Store)
    (envS : Store → Store) (rid key blob : String) (keys : List String) (s s2 : Store)
    (h : get_room now s rid = (none, s2)) :
    add_participant now envP rid key s =
      { result := .valueError ("Room " ++ rid ++ " not found")
        store := s2, casAttempts := 0, sleepsMs := [] } ∧
    add_message now envM rid blob s =
      { result := .valueError ("Room " ++ rid ++ " not found")
        store := s2, casAttempts := 0, sleepsMs := [] } ∧
    set_sorted_keys now envS rid keys s =
      { result := .valueError ("Room " ++ rid ++ " not found")
        store := s2, casAttempts := 0, sleepsMs := [] } ∧
    (register_route now envP rid key s).1 = .httpError 400 ("Room " ++ rid ++ " not found") := by
  refine ⟨add_participant_not_found now envP rid key s s2 h,
    add_message_not_found now envM rid blob s s2 h,
    set_sorted_keys_not_found now envS rid keys s s2 h, ?_⟩
  simp [register_route, add_participant_not_found now envP rid key s s2 h]

/-- C2 witness: the amended theorem applied to the empty store. -/
theorem mutating_op_notfound_witness :
    get_room 0 [] "missing" = (none, []) ∧
    (add_participant 0 noEnv "missing" "k" [] =
      { result := .valueError ("Room " ++ "missing" ++ " not found")
        store := [], casAttempts := 0, sleepsMs := [] } ∧
    add_message 0 noEnv "missing" "b" [] =
      { result := .valueError ("Room " ++ "missing" ++ " not found")
        store := [], casAttempts := 0, sleepsMs := [] } ∧
    set_sorted_keys 0 (fun t => t) "missing" ["x", "y", "z"] [] =
      { result := .valueError ("Room " ++ "missing" ++ " not found")
        store := [], casAttempts := 0, sleepsMs := [] } ∧
    (register_route 0 noEnv "missing" "k" []).1 =
      .httpError 400 ("Room " ++ "missing" ++ " not found")) :=
  ⟨by decide,
    mutating_op_notfound 0 noEnv noEnv (fun t => t) "missing" "k" "b" ["x", "y", "z"] [] []
      (by decide)⟩

/-- C3: on a live `OPEN` room, a first registration of a key `k` not yet present
succeeds and appends exactly `k` (bumping the version by 1); an immediately
following registration of the very same string fails with the
duplicate-registration validation error and leaves the store unchanged; and in
every reachable store (all interleavings of complete atomic operations) every
stored room's participants list is duplicate-free. -/
theorem register_twice_duplicate (now : Nat) (rid key : String) (s : Store) (room : Room)
    (hget : Store.get s rid = some room) (hid : room.id = rid)
    (hlive : now - room.created_at ≤ ROOM_TTL_SECONDS)
    (hopen : room.status = RoomStatus.OPEN) (hfresh : key ∉ room.participants) :
    (add_participant now noEnv rid key s).result = .ok ∧
    Store.get (add_participant now noEnv rid key s).store rid =
      some { room with participants := room.participants ++ [key], version := room.version + 1 } ∧
    add_participant now noEnv rid key (add_participant now noEnv rid key s).store =
      { result := .valueError "Duplicate registration"
        store := (add_participant now noEnv rid key s).store, casAttempts := 0, sleepsMs := [] } ∧
    (∀ t, Reachable t → ∀ k r, Store.get t k = some r → r.participants.Nodup) := by
  have heq := add_participant_ok_eq now rid key s room hget hid hlive hopen hfresh
  have hget' : Store.get (add_participant now noEnv rid key s).store rid =
      some { room with participants := room.participants ++ [key], version := room.version + 1 } := by
    rw [heq]
    exact Store.get_set_self s rid _
  refine ⟨by rw [heq], hget', ?_, ?_⟩
  · have hgr2 := get_room_live now (add_participant now noEnv rid key s).store rid
      { room with participants := room.participants ++ [key], version := room.version + 1 }
      hget' hlive
    exact add_participant_dup now noEnv rid key _ _ _ hgr2 hopen (by simp)
  · intro t ht k r hgr
    exact (roomInvB_spec k r (storeInvB_get t k r (reachable_storeInv t ht) hgr)).2.2

/-- C3 witness: concrete two-call run on a one-room store. -/
theorem register_twice_duplicate_witness :
    (add_participant 0 noEnv "r1" "k" [("r1", sampleRoom)]).result = .ok ∧
    Store.get (add_participant 0 noEnv "r1" "k" [("r1", sampleRoom)]).store "r1" =
      some { sampleRoom with participants := sampleRoom.participants ++ ["k"], version := sampleRoom.version + 1 } ∧
    add_participant 0 noEnv "r1" "k" (add_participant 0 noEnv "r1" "k" [("r1", sampleRoom)]).store =
      { result := .valueError "Duplicate registration"
        store := (add_participant 0 noEnv "r1" "k" [("r1", sampleRoom)]).store
        casAttempts := 0, sleepsMs := [] } ∧
    (∀ t, Reachable t → ∀ k r, Store.get t k = some r → r.participants.Nodup) :=
  register_twice_duplicate 0 "r1" "k" [("r1", sampleRoom)] sampleRoom
    (by decide) (by decide) (by decide) (by decide) (by decide)

/-- C4: on any live room (whatever its status, including one with zero
participants), `set_sorted_keys` with fewer than 3 supplied keys fails with a
`ValueError` (a validation error), makes no CAS attempt and leaves the store
untouched. -/
theorem sort_fewer_than_three_fails (now : Nat) (env : Store → Store) (rid : String)
    (keys : List String) (s : Store) (room : Room)
    (hget : Store.get s rid = some room)
    (hlive : now - room.created_at ≤ ROOM_TTL_SECONDS)
    (hlen : keys.length < 3) :
    ∃ m, set_sorted_keys now env rid keys s =
      { result := .valueError m, store := s, casAttempts := 0, sleepsMs := [] } := by
  have hgr := get_room_live now s rid room hget hlive
  by_cases hopen : room.status = RoomStatus.OPEN
  · exact ⟨_, set_sorted_keys_too_few now env rid keys s s room hgr hopen hlen⟩
  · exact ⟨_, set_sorted_keys_not_open now env rid keys s s room hgr hopen⟩

/-- C4 witness: a zero-participant `OPEN` room with an empty key list. -/
theorem sort_fewer_than_three_fails_witness :
    sampleRoom.participants = [] ∧
    ∃ m, set_sorted_keys 0 (fun t => t) "r1" [] [("r1", sampleRoom)] =
      { result := .valueError m, store := [("r1", sampleRoom)], casAttempts := 0, sleepsMs := [] } :=
  ⟨by decide,
    sort_fewer_than_three_fails 0 (fun t => t) "r1" [] [("r1", sampleRoom)] sampleRoom
      (by decide) (by decide) (by decide)⟩

/-- C5 counterexample: an existing `OPEN` room whose message count equals its
sorted-key count (both zero). Posting fails, but with the
"Cannot send messages before sorting" validation error — not the
slot-exhaustion error the claim promises for every such room. -/
theorem message_equal_counts_open_counterexample :
    sampleRoom.messages.length = sampleRoom.sorted_keys.length ∧
    (add_message 0 noEnv "r1" "b" [("r1", sampleRoom)]).result =
      .valueError "Cannot send messages before sorting" ∧
    (add_message 0 noEnv "r1" "b" [("r1", sampleRoom)]).result ≠
      .valueError "All participants have already submitted their addresses" := by
  refine ⟨by decide, by decide, by decide⟩

/-- C5 (amended): on a live room that has left `OPEN` (status `SORTED` or
`MESSAGING`), when the stored message count equals the sorted-key count,
posting a message always fails with the slot-exhaustion validation error and
leaves the store — in particular the messages list — unchanged; on an `OPEN`
room with equal counts the call also fails, but with the
messaging-before-sorting validation error instead. -/
theorem message_slots_exhausted (now : Nat) (env : Nat → Store → Store)
    (rid blob : String) (s : Store) (room : Room)
    (hget : Store.get s rid = some room)
    (hlive : now - room.created_at ≤ ROOM_TTL_SECONDS)
    (hst : room.status ≠ RoomStatus.OPEN)
    (heq : room.messages.length = room.sorted_keys.length) :
    add_message now env rid blob s =
      { result := .valueError "All participants have already submitted their addresses"
        store := s, casAttempts := 0, sleepsMs := [] } := by
  have hgr := get_room_live now s rid room hget hlive
  exact add_message_full now env rid blob s s room hgr hst (Nat.le_of_eq heq.symm)

/-- C5 witness: a `SORTED` room with all three message slots already filled. -/
theorem message_slots_exhausted_witness :
    ({ sortedRoom with messages := ["m1", "m2", "m3"] } : Room).messages.length
      = ({ sortedRoom with messages := ["m1", "m2", "m3"] } : Room).sorted_keys.length ∧
    add_message 0 noEnv "r1" "b" [("r1", { sortedRoom with messages := ["m1", "m2", "m3"] })] =
      { result := .valueError "All participants have already submitted their addresses"
        store := [("r1", { sortedRoom with messages := ["m1", "m2", "m3"] })]
        casAttempts := 0, sleepsMs := [] } :=
  ⟨by decide,
    message_slots_exhausted 0 noEnv "r1" "b"
      [("r1", { sortedRoom with messages := ["m1", "m2", "m3"] })]
      { sortedRoom with messages := ["m1", "m2", "m3"] }
      (by decide) (by decide) (by decide) (by decide)⟩

/-- C6: reading a room whose creation timestamp is more than the 30-day
retention window in the past returns `None` and pops the record from the store
as a side effect; the popped store no longer holds the key, so every later
read of the same identity (at any time) also returns `None`. -/
theorem expired_room_evicted (now now2 : Nat) (rid : String) (s : Store) (room : Room)
    (hget : Store.get s rid = some room)
    (hexp : ROOM_TTL_SECONDS < now - room.created_at) :
    get_room now s rid = (none, Store.popKey s rid) ∧
    Store.get (Store.popKey s rid) rid = none ∧
    get_room now2 (Store.popKey s rid) rid = (none, Store.popKey s rid) := by
  refine ⟨get_room_expired now s rid room hget hexp, Store.get_popKey_self s rid, ?_⟩
  exact get_room_absent now2 (Store.popKey s rid) rid (Store.get_popKey_self s rid)

/-- C6 witness: a room created at time 0, read just past the 30-day window. -/
theorem expired_room_evicted_witness :
    Store.get [("r1", sampleRoom)] "r1" = some sampleRoom ∧
    ROOM_TTL_SECONDS < 2592001 - sampleRoom.created_at ∧
    (get_room 2592001 [("r1", sampleRoom)] "r1" =
      (none, Store.popKey [("r1", sampleRoom)] "r1") ∧
    Store.get (Store.popKey [("r1", sampleRoom)] "r1") "r1" = none ∧
    get_room 0 (Store.popKey [("r1", sampleRoom)] "r1") "r1" =
      (none, Store.popKey [("r1", sampleRoom)] "r1")) :=
  ⟨by decide, by decide,
    expired_room_evicted 2592001 0 "r1" [("r1", sampleRoom)] sampleRoom
      (by decide) (by decide)⟩

/-- C7: a successful post on a live `SORTED` room flips the status to
`MESSAGING` and appends the blob in the same single store write, and in every
reachable store (any interleaving of whole atomic operations) no stored room
ever has status `SORTED` with a non-empty messages list. -/
theorem first_message_sorted_to_messaging (now : Nat) (rid blob : String)
    (s : Store) (room : Room)
    (hget : Store.get s rid = some room) (hid : room.id = rid)
    (hlive : now - room.created_at ≤ ROOM_TTL_SECONDS)
    (hsorted : room.status = RoomStatus.SORTED)
    (hcap : room.messages.length < room.sorted_keys.length) :
    ((add_message now noEnv rid blob s).result = .ok ∧
      Store.get (add_message now noEnv rid blob s).store rid =
        some { room with
          status := RoomStatus.MESSAGING
          messages := room.messages ++ [blob]
          version := room.version + 1 }) ∧
    (∀ t, Reachable t → ∀ k r, Store.get t k = some r →
      r.status = RoomStatus.SORTED → r.messages = []) := by
  have hst : room.status ≠ RoomStatus.OPEN := by simp [hsorted]
  have heq := add_message_ok_eq now rid blob s room hget hid hlive hst hcap
  refine ⟨⟨by rw [heq], ?_⟩, ?_⟩
  · rw [heq]
    rw [Store.get_set_self s rid _]
    simp [hsorted]
  · intro t ht k r hgr hs
    have h := (roomInvB_spec k r (storeInvB_get t k r (reachable_storeInv t ht) hgr)).2.1
    exact h (by simp [hs])

/-- C7 witness: posting to a concrete `SORTED` room. -/
theorem first_message_sorted_to_messaging_witness :
    ((add_message 0 noEnv "r1" "b" [("r1", sortedRoom)]).result = .ok ∧
      Store.get (add_message 0 noEnv "r1" "b" [("r1", sortedRoom)]).store "r1" =
        some { sortedRoom with
          status := RoomStatus.MESSAGING
          messages := sortedRoom.messages ++ ["b"]
          version := sortedRoom.version + 1 }) ∧
    (∀ t, Reachable t → ∀ k r, Store.get t k = some r →
      r.status = RoomStatus.SORTED → r.messages = []) :=
  first_message_sorted_to_messaging 0 "r1" "b" [("r1", sortedRoom)] sortedRoom
    (by decide) (by decide) (by decide) (by decide) (by decide)

def openRoom3 : Room := { sampleRoom with participants := ["a", "b", "c"] }

/-- C8: `set_sorted_keys` never sleeps and never makes more than one CAS
attempt, whatever interference it races against; when its validations pass but
the room's version changed between the initial read and the version check, it
fails at once with the concurrent-modification outcome after exactly one CAS
attempt and zero backoff delay. By contrast, under persistent conflicting
interference, `add_participant` and `add_message` make `MAX_RETRIES = 5` CAS
attempts, sleeping 50, 100, 200, 400 and 800 milliseconds (doubling each time)
before giving up with their concurrent-modification outcome. -/
theorem sort_single_cas_no_retry :
    (∀ (now : Nat) (env : Store → Store) (rid : String) (keys : List String) (s : Store),
      (set_sorted_keys now env rid keys s).sleepsMs = [] ∧
      (set_sorted_keys now env rid keys s).casAttempts ≤ 1)
    ∧ (∀ (now : Nat) (env : Store → Store) (rid : String) (keys : List String)
        (s : Store) (room : Room),
        Store.get s rid = some room → room.id = rid →
        now - room.created_at ≤ ROOM_TTL_SECONDS →
        room.status = RoomStatus.OPEN →
        ¬ keys.length < 3 → keys.length = room.participants.length →
        keys.length = keys.dedup.length →
        versionDiffers (get_room now (env s) rid).1 room.version = true →
        set_sorted_keys now env rid keys s =
          { result := .concurrentModification "Room was modified during sorting"
            store := (get_room now (env s) rid).2, casAttempts := 1, sleepsMs := [] })
    ∧ ((add_participant 0 (fun _ t => bumpVersion "r1" t) "r1" "k" [("r1", sampleRoom)]).result =
          .concurrentModification "Failed to register after max retries, please try again" ∧
        (add_participant 0 (fun _ t => bumpVersion "r1" t) "r1" "k" [("r1", sampleRoom)]).casAttempts = 5 ∧
        (add_participant 0 (fun _ t => bumpVersion "r1" t) "r1" "k" [("r1", sampleRoom)]).sleepsMs =
          [50, 100, 200, 400, 800])
    ∧ ((add_message 0 (fun _ t => bumpVersion "r1" t) "r1" "b" [("r1", sortedRoom)]).result =
          .concurrentModification "Failed to post message after max retries, please try again" ∧
        (add_message 0 (fun _ t => bumpVersion "r1" t) "r1" "b" [("r1", sortedRoom)]).casAttempts = 5 ∧
        (add_message 0 (fun _ t => bumpVersion "r1" t) "r1" "b" [("r1", sortedRoom)]).sleepsMs =
          [50, 100, 200, 400, 800]) := by
  refine ⟨?_, ?_, by refine ⟨by decide, by decide, by decide⟩, by refine ⟨by decide, by decide, by decide⟩⟩
  · intro now env rid keys s
    rcases hg : get_room now s rid with ⟨o, s'⟩
    cases o with
    | none =>
        rw [set_sorted_keys_not_found now env rid keys s s' hg]
        exact ⟨rfl, by simp⟩
    | some room =>
        simp only [set_sorted_keys, hg]
        split_ifs <;> try exact ⟨rfl, by simp⟩
        rcases update_room_with_version now (env s')
            { room with sorted_keys := keys, status := RoomStatus.SORTED } room.version
          with ⟨b, s''⟩
        cases b <;> exact ⟨rfl, by simp⟩
  · intro now env rid keys s room hget hid hlive hopen hlen hcnt hdup hv
    exact set_sorted_keys_conflict now env rid keys s room hget hid hlive hopen hlen hcnt hdup hv

/-- C8 witness: the single-CAS conflict conjunct applied to a concrete `OPEN`
room with three participants, racing against a version bump. -/
theorem sort_single_cas_no_retry_witness :
    Store.get [("r1", openRoom3)] "r1" = some openRoom3 ∧
    versionDiffers (get_room 0 (bumpVersion "r1" [("r1", openRoom3)]) "r1").1 openRoom3.version = true ∧
    set_sorted_keys 0 (bumpVersion "r1") "r1" ["x", "y", "z"] [("r1", openRoom3)] =
      { result := .concurrentModification "Room was modified during sorting"
        store := (get_room 0 (bumpVersion "r1" [("r1", openRoom3)]) "r1").2
        casAttempts := 1, sleepsMs := [] } :=
  ⟨by decide, by decide,
    sort_single_cas_no_retry.2.1 0 (bumpVersion "r1") "r1" ["x", "y", "z"]
      [("r1", openRoom3)] openRoom3 (by decide) (by decide) (by decide) (by decide)
      (by decide) (by decide) (by decide) (by decide)⟩

/-- C9: on a key-consistent store, a sequential invocation of any of the three
mutating operations that fails (any `ValueError` or concurrent-modification
outcome) leaves the store exactly as it was — or, in the expiry case, with the
room's record popped by the lazy TTL eviction; no partially mutated record is
ever written, because the only write happens after the version check inside
`update_room_with_version` succeeds. -/
theorem failed_op_store_unchanged (now : Nat) (rid key blob : String)
    (keys : List String) (s : Store) (hkc : keyConsistentB s = true) :
    ((add_participant now noEnv rid key s).result ≠ .ok →
      (add_participant now noEnv rid key s).store = s ∨
      (add_participant now noEnv rid key s).store = Store.popKey s rid) ∧
    ((set_sorted_keys now (fun t => t) rid keys s).result ≠ .ok →
      (set_sorted_keys now (fun t => t) rid keys s).store = s ∨
      (set_sorted_keys now (fun t => t) rid keys s).store = Store.popKey s rid) ∧
    ((add_message now noEnv rid blob s).result ≠ .ok →
      (add_message now noEnv rid blob s).store = s ∨
      (add_message now noEnv rid blob s).store = Store.popKey s rid) := by
  refine ⟨?_, ?_, ?_⟩
  · intro hfail
    cases hget : Store.get s rid with
    | none =>
        rw [add_participant_not_found now noEnv rid key s s (get_room_absent now s rid hget)]
        exact Or.inl rfl
    | some room =>
        by_cases hlive : now - room.created_at ≤ ROOM_TTL_SECONDS
        · have hid := keyConsistent_get s rid room hkc hget
          have hgr := get_room_live now s rid room hget hlive
          by_cases hopen : room.status = RoomStatus.OPEN
          · by_cases hmem : key ∈ room.participants
            · rw [add_participant_dup now noEnv rid key s s room hgr hopen hmem]
              exact Or.inl rfl
            · exact absurd (by
                rw [add_participant_ok_eq now rid key s room hget hid hlive hopen hmem]) hfail
          · rw [add_participant_closed now noEnv rid key s s room hgr hopen]
            exact Or.inl rfl
        · rw [add_participant_not_found now noEnv rid key s (Store.popKey s rid)
            (get_room_expired now s rid room hget (Nat.not_le.mp hlive))]
          exact Or.inr rfl
  · intro hfail
    cases hget : Store.get s rid with
    | none =>
        rw [set_sorted_keys_not_found now (fun t => t) rid keys s s (get_room_absent now s rid hget)]
        exact Or.inl rfl
    | some room =>
        by_cases hlive : now - room.created_at ≤ ROOM_TTL_SECONDS
        · have hid := keyConsistent_get s rid room hkc hget
          have hgr := get_room_live now s rid room hget hlive
          by_cases hopen : room.status = RoomStatus.OPEN
          · by_cases hlen : keys.length < 3
            · rw [set_sorted_keys_too_few now (fun t => t) rid keys s s room hgr hopen hlen]
              exact Or.inl rfl
            · by_cases hcnt : keys.length = room.participants.length
              · by_cases hdup : keys.length = keys.dedup.length
                · exact absurd (by
                    rw [set_sorted_keys_ok_eq now rid keys s room hget hid hlive hopen hlen hcnt hdup]) hfail
                · rw [set_sorted_keys_dup now (fun t => t) rid keys s s room hgr hopen hlen hcnt hdup]
                  exact Or.inl rfl
              · rw [set_sorted_keys_count_mismatch now (fun t => t) rid keys s s room hgr hopen hlen hcnt]
                exact Or.inl rfl
          · rw [set_sorted_keys_not_open now (fun t => t) rid keys s s room hgr hopen]
            exact Or.inl rfl
        · rw [set_sorted_keys_not_found now (fun t => t) rid keys s (Store.popKey s rid)
            (get_room_expired now s rid room hget (Nat.not_le.mp hlive))]
          exact Or.inr rfl
  · intro hfail
    cases hget : Store.get s rid with
    | none =>
        rw [add_message_not_found now noEnv rid blob s s (get_room_absent now s rid hget)]
        exact Or.inl rfl
    | some room =>
        by_cases hlive : now - room.created_at ≤ ROOM_TTL_SECONDS
        · have hid := keyConsistent_get s rid room hkc hget
          have hgr := get_room_live now s rid room hget hlive
          by_cases hst : room.status = RoomStatus.OPEN
          · rw [add_message_before_sorting now noEnv rid blob s s room hgr hst]
            exact Or.inl rfl
          · by_cases hfull : room.sorted_keys.length ≤ room.messages.length
            · rw [add_message_full now noEnv rid blob s s room hgr hst hfull]
              exact Or.inl rfl
            · exact absurd (by
                rw [add_message_ok_eq now rid blob s room hget hid hlive hst (Nat.not_le.mp hfull)]) hfail
        · rw [add_message_not_found now noEnv rid blob s (Store.popKey s rid)
            (get_room_expired now s rid room hget (Nat.not_le.mp hlive))]
          exact Or.inr rfl

/-- C9 witness: a failing registration (unknown room id) on a concrete
key-consistent store leaves the store unchanged. -/
theorem failed_op_store_unchanged_witness :
    keyConsistentB [("r1", sampleRoom)] = true ∧
    (add_participant 0 noEnv "missing" "k" [("r1", sampleRoom)]).result ≠ .ok ∧
    ((add_participant 0 noEnv "missing" "k" [("r1", sampleRoom)]).store = [("r1", sampleRoom)] ∨
      (add_participant 0 noEnv "missing" "k" [("r1", sampleRoom)]).store =
        Store.popKey [("r1", sampleRoom)] "missing") :=
  ⟨by decide, by decide,
    (failed_op_store_unchanged 0 "missing" "k" "b" [] [("r1", sampleRoom)] (by decide)).1
      (by decide)⟩

/-- C10: `verify_chair` refuses a falsy supplied secret (absent, or the empty
string) before any hash comparison: even when the hash of the empty string
equals the stored chair secret hash, an empty-string secret is rejected. -/
theorem empty_chair_secret_rejected (sha256_hex : String → String) (room : Room)
    (hcollision : sha256_hex "" = room.chair_secret_hash) :
    verify_chair sha256_hex room (some "") = false ∧
    verify_chair sha256_hex room none = false := by
  constructor
  · simp [verify_chair]
  · rfl

/-- C10 witness: a hash function that maps the empty string to the stored hash;
the empty secret is still rejected. -/
theorem empty_chair_secret_rejected_witness :
    (fun _ : String => "h") "" = sampleRoom.chair_secret_hash ∧
    (verify_chair (fun _ : String => "h") sampleRoom (some "") = false ∧
      verify_chair (fun _ : String => "h") sampleRoom none = false) :=
  ⟨rfl, empty_chair_secret_rejected (fun _ : String => "h") sampleRoom rfl⟩

end CryptoSanta
